import Mathlib

/-!
Verification of the recipe CRUD resource of this repository.

The repository ships two source files: `recipe/serializers.py` (the three
serializer classes with their declared field sets) and
`recipe/tests/test_recipe_api.py` (integration tests of the HTTP contract).
The serializer field sets below are transcribed directly from
`serializers.py`.  The view layer (ownership-scoped queryset, status codes)
is not part of the repository's source tree, so the operations are modelled
from the specification, as marked on each definition.
-/

namespace RecipeApi

/-- A wire-level field value (string, integer, fixed-point decimal in
hundredths, or null). -/
inductive Value where
  | str (s : String)
  | nat (n : Nat)
  | dec (cents : Int)
  | null
deriving DecidableEq, Repr

/-- A request or response body: an ordered list of named field values. -/
abbrev Payload := List (String × Value)

/-- The Recipe entity, with the fields named by the data model: owner
reference `user`, writable fields `title`, `time_minutes`, `price`, `link`,
`description`, and the optional stored-file reference `image`. -/
structure Recipe where
  id : Nat
  user : Nat
  title : String
  time_minutes : Nat
  price : Int
  link : String
  description : String
  image : Option String
deriving DecidableEq, Repr

/-- Field sets of `RecipeSerializer` in `recipe/serializers.py`. -/
def RecipeSerializer.fields : List String :=
  ["id", "title", "time_minutes", "price", "link"]

/-- `read_only_fields` of `RecipeSerializer` in `recipe/serializers.py`. -/
def RecipeSerializer.read_only_fields : List String := ["id"]

/-- Field sets of `RecipeDetailSerializer`: the source derives them from
`RecipeSerializer.Meta.fields + ["description", "image"]`. -/
def RecipeDetailSerializer.fields : List String :=
  RecipeSerializer.fields ++ ["description", "image"]

/-- `read_only_fields` of `RecipeDetailSerializer`: the source reuses
`RecipeSerializer.Meta.read_only_fields`. -/
def RecipeDetailSerializer.read_only_fields : List String :=
  RecipeSerializer.read_only_fields

/-- Field set of `RecipeImageSerializer` in `recipe/serializers.py`. -/
def RecipeImageSerializer.fields : List String := ["id", "image"]

/-- `read_only_fields` of `RecipeImageSerializer`. -/
def RecipeImageSerializer.read_only_fields : List String := ["id"]

/-- The raw value the source gives for the `required` kwarg of `image` in
`extra_kwargs`: the STRING `"True"`, not a boolean. -/
def RecipeImageSerializer.image_required_raw : String := "True"

/-- Python truthiness of a string: nonempty strings are truthy. -/
def pyTruthy (s : String) : Bool := !s.isEmpty

/-- Whether the `image` field is required on the upload path: the framework
stores the kwarg value as-is and branches on its truthiness, so the string
`"True"` behaves as required. -/
def RecipeImageSerializer.image_required : Bool :=
  pyTruthy RecipeImageSerializer.image_required_raw

/-- Write one named field into a Recipe instance at the model layer (the
layer itself can set any column, including `user` and `id`; the serializer
field lists are what restrict client writes). -/
def setField (r : Recipe) (name : String) (v : Value) : Recipe :=
  match name, v with
  | "id", Value.nat n => { r with id := n }
  | "user", Value.nat n => { r with user := n }
  | "title", Value.str s => { r with title := s }
  | "time_minutes", Value.nat n => { r with time_minutes := n }
  | "price", Value.dec q => { r with price := q }
  | "link", Value.str s => { r with link := s }
  | "description", Value.str s => { r with description := s }
  | "image", Value.str s => { r with image := some s }
  | _, _ => r

/-- Read one named field of a Recipe instance. -/
def getField (r : Recipe) : String → Option Value
  | "id" => some (Value.nat r.id)
  | "user" => some (Value.nat r.user)
  | "title" => some (Value.str r.title)
  | "time_minutes" => some (Value.nat r.time_minutes)
  | "price" => some (Value.dec r.price)
  | "link" => some (Value.str r.link)
  | "description" => some (Value.str r.description)
  | "image" => some (match r.image with
      | some s => Value.str s
      | none => Value.null)
  | _ => none

/-- The writable fields of a serializer: declared fields minus read-only
fields (DRF ModelSerializer semantics). -/
def writable (fields ro : List String) : List String :=
  fields.filter (fun f => !ro.contains f)

/-- Apply a client payload through a serializer: only entries naming a
writable field are written; read-only and undeclared fields (such as
`user`) are silently ignored (DRF ModelSerializer semantics). -/
def applyPayload (fields ro : List String) (r : Recipe) (p : Payload) : Recipe :=
  p.foldl (fun acc kv =>
    if (writable fields ro).contains kv.1 then setField acc kv.1 kv.2 else acc) r

/-- Serialize a Recipe to its wire representation: the declared fields, in
declaration order. -/
def serialize (fields : List String) (r : Recipe) : Payload :=
  fields.filterMap (fun f => (getField r f).map (fun v => (f, v)))

/-- Apply a payload through the detail serializer (the serializer used by
the general create/update path of the view). -/
def applyDetail (r : Recipe) (p : Payload) : Recipe :=
  applyPayload RecipeDetailSerializer.fields RecipeDetailSerializer.read_only_fields r p

/-- Descending-identifier order on recipes. -/
def descId (a b : Recipe) : Prop := b.id ≤ a.id

instance : DecidableRel descId := fun _ _ => Nat.decLe _ _

instance : IsTotal Recipe descId := ⟨fun a b => Nat.le_total b.id a.id⟩

instance : IsTrans Recipe descId := ⟨fun _ _ _ h1 h2 => Nat.le_trans h2 h1⟩

/-- Sort recipes by descending identifier (most recently created first). -/
def sortDescId (l : List Recipe) : List Recipe := List.insertionSort descId l

/-- Modelled from the spec: the view's ownership-scoped queryset
(`views.py` is absent from the source tree) — "returns only records owned
by the caller, ordered by descending identifier". -/
def recipeQueryset (store : List Recipe) (u : Nat) : List Recipe :=
  sortDescId (store.filter (fun r => r.user == u))

/-- Modelled from the spec: ownership-scoped lookup, "query store for
`id AND owner=caller`", applied before any per-object check so a foreign
record is indistinguishable from an absent one. -/
def findOwned (store : List Recipe) (u id : Nat) : Option Recipe :=
  store.find? (fun r => r.user == u && r.id == id)

/-- Modelled from the spec: `GET /recipes` — 401 when unauthenticated,
otherwise 200 with the summary serializations of the caller's queryset. -/
def listRecipes (store : List Recipe) (caller : Option Nat) :
    Nat × List Payload :=
  match caller with
  | none => (401, [])
  | some u => (200, (recipeQueryset store u).map (serialize RecipeSerializer.fields))

/-- Modelled from the spec: `GET /recipes/{id}` — 401 unauthenticated, 404
when the owned lookup misses, otherwise 200 with the detail serialization. -/
def retrieveRecipe (store : List Recipe) (caller : Option Nat) (id : Nat) :
    Nat × Option Payload :=
  match caller with
  | none => (401, none)
  | some u =>
    match findOwned store u id with
    | none => (404, none)
    | some r => (200, some (serialize RecipeDetailSerializer.fields r))

/-- Largest identifier in use, plus one: identifiers are unique and
assigned in creation order. -/
def nextId (store : List Recipe) : Nat :=
  1 + store.foldl (fun m r => max m r.id) 0

/-- Modelled from the spec: the record built by a create request — a fresh
identifier, the owner forced to the authenticated caller
(`serializer.save(user=request.user)`), then the client payload applied
through the detail serializer. -/
def createdRecipe (store : List Recipe) (u : Nat) (p : Payload) : Recipe :=
  applyDetail
    { id := nextId store, user := u, title := "", time_minutes := 0,
      price := 0, link := "", description := "", image := none } p

/-- Modelled from the spec: `POST /recipes` — 401 unauthenticated,
otherwise 201 and the created record is stored with the caller as owner. -/
def createRecipe (store : List Recipe) (caller : Option Nat) (p : Payload) :
    Nat × List Recipe :=
  match caller with
  | none => (401, store)
  | some u => (201, createdRecipe store u p :: store)

/-- Modelled from the spec: `PATCH`/`PUT /recipes/{id}` — 401
unauthenticated, 404 when the owned lookup misses (store unchanged),
otherwise 200 and the matched record has the payload applied through the
detail serializer; unspecified fields retain their prior values. -/
def updateRecipe (store : List Recipe) (caller : Option Nat) (id : Nat)
    (p : Payload) : Nat × List Recipe :=
  match caller with
  | none => (401, store)
  | some u =>
    match findOwned store u id with
    | none => (404, store)
    | some _ =>
      (200, store.map (fun r =>
        if r.user == u && r.id == id then applyDetail r p else r))

/-- Modelled from the spec: `DELETE /recipes/{id}` — 401 unauthenticated,
404 when the owned lookup misses (store unchanged), otherwise 204 with no
body and the record removed from the store. -/
def deleteRecipe (store : List Recipe) (caller : Option Nat) (id : Nat) :
    Nat × List Recipe :=
  match caller with
  | none => (401, store)
  | some u =>
    match findOwned store u id with
    | none => (404, store)
    | some _ => (204, store.filter (fun r => r.id != id))

/-- The body of an image-upload request: absent, present but not a valid
image file (for example the bare string "notimage"), or a valid image. -/
inductive ImagePayload where
  | missing
  | invalid (raw : String)
  | valid (file : String)
deriving DecidableEq, Repr

/-- Modelled from the spec: `POST /recipes/{id}/image` — 401
unauthenticated, 404 when the owned lookup misses, 400 when the payload is
not a valid image or is absent while `image` is required, otherwise 200 and
the image written through the image serializer. -/
def uploadImage (store : List Recipe) (caller : Option Nat) (id : Nat)
    (p : ImagePayload) : Nat × List Recipe :=
  match caller with
  | none => (401, store)
  | some u =>
    match findOwned store u id with
    | none => (404, store)
    | some _ =>
      match p with
      | ImagePayload.missing =>
          if RecipeImageSerializer.image_required then (400, store)
          else (200, store)
      | ImagePayload.invalid _ => (400, store)
      | ImagePayload.valid f =>
          (200, store.map (fun r =>
            if r.user == u && r.id == id then
              applyPayload RecipeImageSerializer.fields
                RecipeImageSerializer.read_only_fields r [("image", Value.str f)]
            else r))

/-- Stores are well-formed when identifiers are globally unique. -/
def idsUnique (store : List Recipe) : Prop :=
  store.Pairwise (fun a b => a.id ≠ b.id)

/-- The sample recipe the test helper `create_recipe` builds (price 5.00
represented in hundredths). -/
def sampleRecipe : Recipe :=
  { id := 1, user := 1, title := "Sample recipe", time_minutes := 10,
    price := 500, link := "https://sample.com/recipe.pdf",
    description := "Sample description", image := none }

/-! ### Helper lemmas -/

lemma mem_of_contains {l : List String} {a : String}
    (h : l.contains a = true) : a ∈ l := by
  simpa using h

lemma setField_user {r : Recipe} {n : String} {v : Value} (h : n ≠ "user") :
    (setField r n v).user = r.user := by
  unfold setField
  split <;> simp_all

lemma setField_id {r : Recipe} {n : String} {v : Value} (h : n ≠ "id") :
    (setField r n v).id = r.id := by
  unfold setField
  split <;> simp_all

lemma applyPayload_user {fields ro : List String}
    (h : "user" ∉ writable fields ro) :
    ∀ (p : Payload) (r : Recipe), (applyPayload fields ro r p).user = r.user := by
  intro p
  induction p with
  | nil => intro r; rfl
  | cons kv rest ih =>
    intro r
    show (applyPayload fields ro
      (if (writable fields ro).contains kv.1 then setField r kv.1 kv.2 else r)
      rest).user = r.user
    rw [ih]
    by_cases hc : (writable fields ro).contains kv.1
    · rw [if_pos hc]
      exact setField_user (fun he => h (he ▸ mem_of_contains hc))
    · rw [if_neg hc]

lemma applyPayload_id {fields ro : List String}
    (h : "id" ∉ writable fields ro) :
    ∀ (p : Payload) (r : Recipe), (applyPayload fields ro r p).id = r.id := by
  intro p
  induction p with
  | nil => intro r; rfl
  | cons kv rest ih =>
    intro r
    show (applyPayload fields ro
      (if (writable fields ro).contains kv.1 then setField r kv.1 kv.2 else r)
      rest).id = r.id
    rw [ih]
    by_cases hc : (writable fields ro).contains kv.1
    · rw [if_pos hc]
      exact setField_id (fun he => h (he ▸ mem_of_contains hc))
    · rw [if_neg hc]

lemma applyDetail_user (r : Recipe) (p : Payload) :
    (applyDetail r p).user = r.user :=
  applyPayload_user (by decide) p r

lemma applyDetail_id (r : Recipe) (p : Payload) :
    (applyDetail r p).id = r.id :=
  applyPayload_id (by decide) p r

lemma findOwned_self : ∀ {store : List Recipe} {u : Nat} {r : Recipe},
    idsUnique store → r ∈ store → r.user = u → findOwned store u r.id = some r := by
  intro store
  induction store with
  | nil => intro u r _ hmem _; cases hmem
  | cons x xs ih =>
    intro u r huniq hmem hown
    rcases List.mem_cons.mp hmem with rfl | hmem'
    · rw [findOwned, List.find?_cons_of_pos _ (by simp [hown])]
    · have hx : x.id ≠ r.id := (List.pairwise_cons.mp huniq).1 r hmem'
      rw [findOwned, List.find?_cons_of_neg _ (by simp [hx])]
      exact ih (List.pairwise_cons.mp huniq).2 hmem' hown

lemma findOwned_none {store : List Recipe} {u id : Nat}
    (h : ∀ x ∈ store, x.id = id → x.user ≠ u) : findOwned store u id = none := by
  rw [findOwned, List.find?_eq_none]
  intro x hx hpx
  simp only [Bool.and_eq_true, beq_iff_eq] at hpx
  exact h x hx hpx.2 hpx.1

lemma eq_of_idsUnique {store : List Recipe} (huniq : idsUnique store)
    {x r : Recipe} (hx : x ∈ store) (hr : r ∈ store) (hid : x.id = r.id) :
    x = r := by
  by_contra hne
  exact List.Pairwise.forall (fun _ _ h => Ne.symm h) huniq hx hr hne hid

lemma mem_serialize {fs : List String} {r : Recipe} {n : String} {v : Value}
    (h : (n, v) ∈ serialize fs r) : n ∈ fs := by
  unfold serialize at h
  rcases List.mem_filterMap.mp h with ⟨f, hf, heq⟩
  rcases Option.map_eq_some'.mp heq with ⟨w, _, hpair⟩
  cases hpair
  exact hf

/-! ### Claim theorems -/

/-- C1: a retrieve, update, or delete request by an authenticated caller on
a recipe owned by a different user answers 404, never 403, and the response
is identical to the one for an absent identifier: foreign and absent
records are indistinguishable to the client. -/
theorem cross_owner_hidden_404 (store : List Recipe) (u : Nat) (r : Recipe)
    (p : Payload) (huniq : idsUnique store) (hmem : r ∈ store)
    (hother : r.user ≠ u) :
    retrieveRecipe store (some u) r.id = (404, none) ∧
    updateRecipe store (some u) r.id p = (404, store) ∧
    deleteRecipe store (some u) r.id = (404, store) ∧
    ∀ id2, (∀ x ∈ store, x.id ≠ id2) →
      retrieveRecipe store (some u) id2 = (404, none) := by
  have hnone : findOwned store u r.id = none :=
    findOwned_none (fun x hx hid => (eq_of_idsUnique huniq hx hmem hid) ▸ hother)
  refine ⟨?_, ?_, ?_, ?_⟩
  · simp [retrieveRecipe, hnone]
  · simp [updateRecipe, hnone]
  · simp [deleteRecipe, hnone]
  · intro id2 habs
    have h2 : findOwned store u id2 = none :=
      findOwned_none (fun x hx hid => absurd hid (habs x hx))
    simp [retrieveRecipe, h2]

/-- Witness for C1: caller 2 on the sample recipe owned by user 1. -/
theorem cross_owner_hidden_404_witness :
    retrieveRecipe [sampleRecipe] (some 2) sampleRecipe.id = (404, none) ∧
    deleteRecipe [sampleRecipe] (some 2) sampleRecipe.id = (404, [sampleRecipe]) :=
  ⟨(cross_owner_hidden_404 [sampleRecipe] 2 sampleRecipe []
      (by simp [idsUnique]) (by simp) (by decide)).1,
   (cross_owner_hidden_404 [sampleRecipe] 2 sampleRecipe []
      (by simp [idsUnique]) (by simp) (by decide)).2.2.1⟩

/-- C2: an authenticated list request answers 200 with exactly the
caller's recipes (every stored recipe is in the queryset iff it is owned by
the caller), ordered by descending identifier, serialized through the
summary serializer. -/
theorem list_scoped_to_owner (store : List Recipe) (u : Nat) :
    (listRecipes store (some u)).1 = 200 ∧
    (listRecipes store (some u)).2 =
      (recipeQueryset store u).map (serialize RecipeSerializer.fields) ∧
    (∀ r : Recipe, r ∈ recipeQueryset store u ↔ r ∈ store ∧ r.user = u) ∧
    (recipeQueryset store u).Pairwise descId := by
  refine ⟨rfl, rfl, ?_, ?_⟩
  · intro r
    rw [recipeQueryset, sortDescId,
      (List.perm_insertionSort descId _).mem_iff]
    simp [List.mem_filter]
  · exact List.sorted_insertionSort descId _

/-- C3: an authenticated create answers 201, stores the created record,
the owner is the caller no matter what payload is supplied (including a
`user` entry), and the writable payload fields land in the stored record
exactly. -/
theorem create_sets_owner_and_fields (store : List Recipe) (u b : Nat)
    (p : Payload) (t : String) (m : Nat) (q : Int) :
    (createRecipe store (some u) p).1 = 201 ∧
    (createRecipe store (some u) p).2 = createdRecipe store u p :: store ∧
    (createdRecipe store u p).user = u ∧
    (createdRecipe store u
        [("title", Value.str t), ("time_minutes", Value.nat m),
         ("price", Value.dec q), ("user", Value.nat b)]).title = t ∧
    (createdRecipe store u
        [("title", Value.str t), ("time_minutes", Value.nat m),
         ("price", Value.dec q), ("user", Value.nat b)]).time_minutes = m ∧
    (createdRecipe store u
        [("title", Value.str t), ("time_minutes", Value.nat m),
         ("price", Value.dec q), ("user", Value.nat b)]).price = q ∧
    (createdRecipe store u
        [("title", Value.str t), ("time_minutes", Value.nat m),
         ("price", Value.dec q), ("user", Value.nat b)]).user = u :=
  ⟨rfl, rfl, applyDetail_user _ p, rfl, rfl, rfl, rfl⟩

/-- C4: no authenticated client-facing mutation (update with any payload,
image upload) changes the owner (or the identifier) of any stored recipe;
an update payload naming `user` is silently ignored. -/
theorem owner_never_changed (store : List Recipe) (u id : Nat)
    (p : Payload) (ip : ImagePayload) :
    ((updateRecipe store (some u) id p).2).map (fun r => (r.id, r.user)) =
      store.map (fun r => (r.id, r.user)) ∧
    ((uploadImage store (some u) id ip).2).map (fun r => (r.id, r.user)) =
      store.map (fun r => (r.id, r.user)) := by
  constructor
  · rw [updateRecipe]
    cases h : findOwned store u id with
    | none => rfl
    | some r0 =>
      show (store.map _).map _ = _
      rw [List.map_map]
      refine List.map_congr_left (fun a _ => ?_)
      show ((if a.user == u && a.id == id then applyDetail a p else a).id,
            (if a.user == u && a.id == id then applyDetail a p else a).user) =
        (a.id, a.user)
      by_cases hc : (a.user == u && a.id == id) = true
      · rw [if_pos hc, applyDetail_id, applyDetail_user]
      · rw [if_neg hc]
  · cases h : findOwned store u id with
    | none => simp [uploadImage, h]
    | some r0 =>
      cases ip with
      | missing => simp [uploadImage, h, apply_ite Prod.snd]
      | invalid s => simp [uploadImage, h]
      | valid f =>
        simp only [uploadImage, h]
        rw [List.map_map]
        refine List.map_congr_left (fun a _ => ?_)
        show ((if a.user == u && a.id == id then
                applyPayload RecipeImageSerializer.fields
                  RecipeImageSerializer.read_only_fields a
                  [("image", Value.str f)] else a).id,
              (if a.user == u && a.id == id then
                applyPayload RecipeImageSerializer.fields
                  RecipeImageSerializer.read_only_fields a
                  [("image", Value.str f)] else a).user) = (a.id, a.user)
        by_cases hc : (a.user == u && a.id == id) = true
        · rw [if_pos hc, applyPayload_id (by decide),
            applyPayload_user (by decide)]
        · rw [if_neg hc]

/-- C5: with no credential, every operation on the recipe resource answers
401 authentication-required. -/
theorem unauthenticated_requests_401 (store : List Recipe) (id : Nat)
    (p : Payload) (ip : ImagePayload) :
    (listRecipes store none).1 = 401 ∧
    (retrieveRecipe store none id).1 = 401 ∧
    (createRecipe store none p).1 = 401 ∧
    (updateRecipe store none id p).1 = 401 ∧
    (deleteRecipe store none id).1 = 401 ∧
    (uploadImage store none id ip).1 = 401 :=
  ⟨rfl, rfl, rfl, rfl, rfl, rfl⟩

/-- C6: a PATCH of only the title by the owner answers 200 and rewrites
exactly the matched record's title, leaving every other field of that
record (owner, link, and the rest) and every other record unchanged. -/
theorem patch_preserves_unspecified (store : List Recipe) (u : Nat)
    (r : Recipe) (t : String) (huniq : idsUnique store) (hmem : r ∈ store)
    (hown : r.user = u) :
    (updateRecipe store (some u) r.id [("title", Value.str t)]).1 = 200 ∧
    (updateRecipe store (some u) r.id [("title", Value.str t)]).2 =
      store.map (fun x => if x.id = r.id then { r with title := t } else x) := by
  have hfind := findOwned_self huniq hmem hown
  constructor
  · simp [updateRecipe, hfind]
  · simp only [updateRecipe, hfind]
    refine List.map_congr_left (fun x hx => ?_)
    by_cases hid : x.id = r.id
    · have hxr : x = r := eq_of_idsUnique huniq hx hmem hid
      subst hxr
      have hcond : (x.user == u && x.id == x.id) = true := by simp [hown]
      rw [if_pos hcond, if_pos rfl]
      exact rfl
    · simp [hid]

/-- Witness for C6: patching the sample recipe's title as its owner. -/
theorem patch_preserves_unspecified_witness :
    (updateRecipe [sampleRecipe] (some 1) sampleRecipe.id
        [("title", Value.str "Chicken masala")]).2 =
      [{ sampleRecipe with title := "Chicken masala" }] := by
  have h := patch_preserves_unspecified [sampleRecipe] 1 sampleRecipe
    "Chicken masala" (by simp [idsUnique]) (by simp) rfl
  rw [h.2]
  rfl

/-- C7: deleting a foreign recipe answers 404 and leaves the store (and
the record) untouched; deleting one's own recipe answers 204 with no body
and removes exactly that record. -/
theorem delete_spec (store : List Recipe) (u : Nat) (r : Recipe)
    (huniq : idsUnique store) (hmem : r ∈ store) :
    (r.user ≠ u →
      deleteRecipe store (some u) r.id = (404, store) ∧
      r ∈ (deleteRecipe store (some u) r.id).2) ∧
    (r.user = u →
      (deleteRecipe store (some u) r.id).1 = 204 ∧
      (deleteRecipe store (some u) r.id).2 =
        store.filter (fun x => x.id != r.id) ∧
      r ∉ (deleteRecipe store (some u) r.id).2) := by
  constructor
  · intro hother
    have hnone : findOwned store u r.id = none :=
      findOwned_none (fun x hx hid => (eq_of_idsUnique huniq hx hmem hid) ▸ hother)
    constructor
    · simp [deleteRecipe, hnone]
    · simp [deleteRecipe, hnone, hmem]
  · intro hown
    have hfind := findOwned_self huniq hmem hown
    refine ⟨?_, ?_, ?_⟩
    · simp [deleteRecipe, hfind]
    · simp [deleteRecipe, hfind]
    · simp [deleteRecipe, hfind, List.mem_filter]

/-- Witness for C7: the owner deletes the sample recipe. -/
theorem delete_spec_witness :
    (deleteRecipe [sampleRecipe] (some 1) sampleRecipe.id).1 = 204 ∧
    (deleteRecipe [sampleRecipe] (some 1) sampleRecipe.id).2 = [] := by
  have h := (delete_spec [sampleRecipe] 1 sampleRecipe
    (by simp [idsUnique]) (by simp)).2 rfl
  exact ⟨h.1, by rw [h.2.1]; rfl⟩

/-- C8: the summary field set is a strict subset of the detail field set,
the detail-only fields are exactly description and image, and the
read-only field set is exactly the identifier in both serializers. -/
theorem representation_field_sets :
    RecipeSerializer.fields = ["id", "title", "time_minutes", "price", "link"] ∧
    (∀ f ∈ RecipeSerializer.fields, f ∈ RecipeDetailSerializer.fields) ∧
    (∃ f ∈ RecipeDetailSerializer.fields, f ∉ RecipeSerializer.fields) ∧
    RecipeDetailSerializer.fields.filter
        (fun f => !RecipeSerializer.fields.contains f) =
      ["description", "image"] ∧
    RecipeDetailSerializer.read_only_fields = RecipeSerializer.read_only_fields ∧
    RecipeSerializer.read_only_fields = ["id"] := by
  decide

/-- C9: the image-upload serializer declares exactly the identifier and
image fields with the identifier read-only and the image required, and an
upload by the owner with a non-image payload (such as "notimage") or with
the image absent answers 400 and leaves the store unchanged. -/
theorem image_upload_validation (store : List Recipe) (u : Nat) (r : Recipe)
    (s : String) (huniq : idsUnique store) (hmem : r ∈ store)
    (hown : r.user = u) :
    RecipeImageSerializer.fields = ["id", "image"] ∧
    RecipeImageSerializer.read_only_fields = ["id"] ∧
    RecipeImageSerializer.image_required = true ∧
    uploadImage store (some u) r.id (ImagePayload.invalid s) = (400, store) ∧
    uploadImage store (some u) r.id ImagePayload.missing = (400, store) := by
  have hfind := findOwned_self huniq hmem hown
  have hreq : RecipeImageSerializer.image_required = true := rfl
  refine ⟨rfl, rfl, rfl, ?_, ?_⟩
  · simp [uploadImage, hfind]
  · simp [uploadImage, hfind, hreq]

/-- Witness for C9: uploading the string "notimage" to the owner's own
recipe. -/
theorem image_upload_validation_witness :
    uploadImage [sampleRecipe] (some 1) sampleRecipe.id
      (ImagePayload.invalid "notimage") = (400, [sampleRecipe]) :=
  (image_upload_validation [sampleRecipe] 1 sampleRecipe "notimage"
    (by simp [idsUnique]) (by simp) rfl).2.2.2.1

/-- C10: no serializer declares the `user` field, no serialized output of
any of the three serializers contains a `user` entry, and applying any
payload through any of the three serializers leaves the owner unchanged. -/
theorem user_field_never_exposed :
    ("user" ∉ RecipeSerializer.fields ∧
      "user" ∉ RecipeDetailSerializer.fields ∧
      "user" ∉ RecipeImageSerializer.fields) ∧
    (∀ (r : Recipe) (v : Value),
      ("user", v) ∉ serialize RecipeSerializer.fields r ∧
      ("user", v) ∉ serialize RecipeDetailSerializer.fields r ∧
      ("user", v) ∉ serialize RecipeImageSerializer.fields r) ∧
    (∀ (r : Recipe) (p : Payload),
      (applyPayload RecipeSerializer.fields
        RecipeSerializer.read_only_fields r p).user = r.user ∧
      (applyPayload RecipeDetailSerializer.fields
        RecipeDetailSerializer.read_only_fields r p).user = r.user ∧
      (applyPayload RecipeImageSerializer.fields
        RecipeImageSerializer.read_only_fields r p).user = r.user) := by
  refine ⟨by decide, ?_, ?_⟩
  · intro r v
    exact ⟨fun h => absurd (mem_serialize h) (by decide),
      fun h => absurd (mem_serialize h) (by decide),
      fun h => absurd (mem_serialize h) (by decide)⟩
  · intro r p
    exact ⟨applyPayload_user (by decide) p r,
      applyPayload_user (by decide) p r,
      applyPayload_user (by decide) p r⟩

end RecipeApi
